import Mathlib

/-! Dynamic DNS updater (`server/dynamic_dns/main.go`).

A shallow embedding of the single-shot dynamic DNS updater.  The program is a
straight line of five external operations (open the config file, GET the public
IP, read the IP cache file, POST the update, write the IP cache file).  The
embedding threads an explicit state made of the file system and the log of the
external operations performed so far; the answers of the outside world (HTTP
responses, JSON decoding, the umask, I/O faults on the write) are collected in
`World`.

The file system is the view the process has through the path strings it uses:
the content found at each string, and what the permission bits of the file there
grant to the process.  Two strings that lead to the same file (another spelling,
a link) are not related by the model: no theorem speaks of what a write through
one string does to the content found at another.

Go strings are byte sequences; every operation the program applies to them
(conversion to and from `[]byte`, `==`, `%s` formatting) is transparent to the
alphabet, so they are modelled by `String`.  Console output is not modelled.
-/

namespace DynDns

/-! ## Package-level variables (main.go, lines 11-17) -/

def ipFile : String := "./public_ip.txt"

def configFile : String := "./dyndns.conf"

def publicIpUrl : String := "https://domains.google.com/checkip"

def publicIpFormat : String := "text"

def dynDnsUrl : String :=
  "https://%s:%s@domains.google.com/nic/update?hostname=%s&myip=%s"

/-- The host component of the `dynDnsUrl` format string (between `@` and the
first `/` of the path). -/
def providerHost : String := "domains.google.com"

/-- The three configuration values (main.go, lines 19-23). -/
structure Config where
  Username : String
  Password : String
  FQDN : String
deriving DecidableEq, Repr

/-! ## The outside world -/

/-- One path of the file system as the process sees it: nothing there, something
there that the process cannot access (`os.Open`, `os.ReadFile` and
`os.WriteFile` all fail on it, as when the lookup of the path is refused), or a
regular file with its content.  Whether the process may read or write a regular
file is a matter of its permission bits, kept apart in `Access`. -/
inductive File where
  | absent
  | unreadable
  | data (content : String)
deriving DecidableEq, Repr

/-- The file system: what each path holds. -/
abbrev FS := String → File

/-- The view of the file system after the file at the path string `name` has
become `f`.  The view at every other string is kept as it was: the model does not
follow other spellings of the path or links to the file. -/
def FS.set (fs : FS) (name : String) (f : File) : FS :=
  fun p => if p = name then f else fs p

/-- What the permission bits of the regular file at a path grant to the
process. -/
structure Access where
  read : Bool
  write : Bool
deriving DecidableEq, Repr

/-- The permissions at each path; they matter where a regular file is. -/
abbrev Perms := String → Access

/-- The permissions with `name` granting `a` and every other path as before. -/
def Perms.set (perms : Perms) (name : String) (a : Access) : Perms :=
  fun p => if p = name then a else perms p

/-- The permission bits of a file that is created with the bits `perm` asked for
under the process's `umask`: the bits of `perm` that `umask` does not clear. -/
def createdMode (perm umask : Nat) : Nat :=
  perm &&& (0o777 ^^^ (umask &&& 0o777))

/-- What the permission bits `mode` grant to the owner of the file, an
unprivileged process: reading with bit 0400, writing with bit 0200. -/
def ownerAccess (mode : Nat) : Access :=
  ⟨mode.testBit 8, mode.testBit 7⟩

/-- What a response of `net/http` offers to the program: the status code, and
the body as `ioutil.ReadAll` returns it (`none` when reading the body fails). -/
structure Response where
  StatusCode : Nat
  Body : Option String
deriving DecidableEq, Repr

/-- How a call of `os.WriteFile` that the permissions allow goes.  `os.WriteFile`
opens the file with `O_WRONLY|O_CREATE|O_TRUNC`, writes, and closes; as its
documentation says, "a failure mid-operation can leave the file in a partially
written state".
* `none`: no failure;
* `openFails`: the open fails, nothing is touched;
* `writeFails n`: the file has been created or truncated, `n` bytes of the data
  reach it, and the write (or the close) reports an error. -/
inductive WriteFault where
  | none
  | openFails
  | writeFails (n : Nat)
deriving DecidableEq, Repr

/-- The answers of the outside world during one run. -/
structure World where
  /-- Answer of `http.Get url`: `none` when the request cannot be sent. -/
  Get : String → Option Response
  /-- Answer of `http.Post url contentType nil`: `none` when the request
  cannot be sent. -/
  Post : String → String → Option Response
  /-- Decoding of the config file content by `encoding/json` into a `Config`:
  `none` when decoding fails. -/
  Decode : String → Option Config
  /-- The fault, if any, that the run's `os.WriteFile` call meets. -/
  writeFault : WriteFault
  /-- The file mode creation mask of the process. -/
  umask : Nat

/-- The external operations, as they appear in the log.  An operation is logged
when the program calls it, whether the call then succeeds or fails. -/
inductive Event where
  | Open (name : String)
  | Get (url : String)
  | ReadFile (name : String)
  | Post (url : String) (contentType : String)
  | WriteFile (name : String) (data : String)
deriving DecidableEq, Repr

/-- The state threaded through a run: the file system, the log of external
operations performed so far (oldest first), and the permissions of the files. -/
structure St where
  fs : FS
  log : List Event
  access : Perms

/-- The errors the program builds with `fmt.Errorf`, one constructor per site. -/
inductive Error where
  | gettingPublicIp
  | non200 (status : Nat)
  | readingIpBody
  | readingIpFile
  | writingIpFile
  | updatingDynDns
  | readingDynDnsBody
  | openingConfig
  | decodingConfig
deriving DecidableEq, Repr

/-- The errors of package `os` that the program tells apart with
`os.IsNotExist`. -/
inductive OsError where
  | notExist
  | other
deriving DecidableEq, Repr

/-! ## Library functions -/

/-- The `%s` fragment of `fmt.Sprintf` on a format given as a list of
characters: each `%s` is replaced by the next argument, verbatim; with no
argument left it prints `%!s(MISSING)`.  Any other character is copied. -/
def sprintfAux : List Char → List String → List Char
  | '%' :: 's' :: rest, a :: args => a.data ++ sprintfAux rest args
  | '%' :: 's' :: rest, [] => "%!s(MISSING)".data ++ sprintfAux rest []
  | c :: rest, args => c :: sprintfAux rest args
  | [], _ => []

/-- The function `fmt.Sprintf` restricted to the `%s` verb. -/
def Sprintf (format : String) (args : List String) : String :=
  ⟨sprintfAux format.data args⟩

/-- The function `os.ReadFile`: the content of the file, or an error.  A
regular file is read only with the read permission. -/
def osReadFile (fs : FS) (perms : Perms) (name : String) : String × Option OsError :=
  match fs name with
  | .absent => ("", some .notExist)
  | .unreadable => ("", some .other)
  | .data content => if (perms name).read then (content, none) else ("", some .other)

/-- The function `os.Open` followed by reading the whole file. -/
def osOpen (fs : FS) (perms : Perms) (name : String) : Option String :=
  match fs name with
  | .data content => if (perms name).read then some content else none
  | _ => none

/-- The function `os.WriteFile name data perm`: the new file system, the new
permissions and whether an error is returned (`true`: error).  A file that
exists is truncated "without changing permissions", which takes the write
permission and no other; a file that does not exist is created with the bits of
`perm` that the umask leaves, and written through the descriptor just opened
whatever those bits are. -/
def osWriteFile (fs : FS) (perms : Perms) (umask : Nat) (name : String) (data : String)
    (perm : Nat) (fault : WriteFault) : FS × Perms × Bool :=
  match fs name with
  | .unreadable => (fs, perms, true)
  | .data _ =>
    if (perms name).write then
      match fault with
      | .none => (fs.set name (.data data), perms, false)
      | .openFails => (fs, perms, true)
      | .writeFails n => (fs.set name (.data ⟨data.data.take n⟩), perms, true)
    else (fs, perms, true)
  | .absent =>
    match fault with
    | .none =>
      (fs.set name (.data data), perms.set name (ownerAccess (createdMode perm umask)), false)
    | .openFails => (fs, perms, true)
    | .writeFails n =>
      (fs.set name (.data ⟨data.data.take n⟩),
        perms.set name (ownerAccess (createdMode perm umask)), true)

/-! ## The program -/

/-- The URL that `getPublicIp` requests. -/
def publicIpRequestUrl : String :=
  Sprintf "%s?format=%s" [publicIpUrl, publicIpFormat]

/-- Retrieves this host's public IP address (main.go, lines 26-45). -/
def getPublicIp (w : World) (s : St) : Except Error String × St :=
  let s1 : St := { s with log := s.log ++ [Event.Get publicIpRequestUrl] }
  match w.Get publicIpRequestUrl with
  | none => (.error .gettingPublicIp, s1)
  | some resp =>
    if resp.StatusCode ≠ 200 then (.error (.non200 resp.StatusCode), s1)
    else
      match resp.Body with
      | none => (.error .readingIpBody, s1)
      | some body => (.ok body, s1)

/-- Reads the previously recorded public IP address (main.go, lines 48-55). -/
def readIpFromFile (s : St) : Except Error String × St :=
  let s1 : St := { s with log := s.log ++ [Event.ReadFile ipFile] }
  match osReadFile s.fs s.access ipFile with
  | (ip, err) =>
    if err ≠ none ∧ err ≠ some OsError.notExist then (.error .readingIpFile, s1)
    else (.ok ip, s1)

/-- Stores the given IP on the local file system (main.go, lines 59-65). -/
def writeIpToFile (w : World) (ip : String) (s : St) : Except Error Unit × St :=
  match osWriteFile s.fs s.access w.umask ipFile ip 0o666 w.writeFault with
  | (fs1, access1, err) =>
    let s1 : St :=
      { fs := fs1, log := s.log ++ [Event.WriteFile ipFile ip], access := access1 }
    if err then (.error .writingIpFile, s1) else (.ok (), s1)

/-- The URL that `updateDynDns` posts to (main.go, line 70). -/
def updateUrl (config : Config) (ip : String) : String :=
  Sprintf dynDnsUrl [config.Username, config.Password, config.FQDN, ip]

/-- Sends the update request to the dynamic DNS provider (main.go, lines
69-89).  The status code of the response is printed, never tested. -/
def updateDynDns (w : World) (config : Config) (ip : String) (s : St) :
    Except Error Unit × St :=
  let url := updateUrl config ip
  let s1 : St := { s with log := s.log ++ [Event.Post url ""] }
  match w.Post url "" with
  | none => (.error .updatingDynDns, s1)
  | some resp =>
    match resp.Body with
    | none => (.error .readingDynDnsBody, s1)
    | some _ => (.ok (), s1)

/-- Opens and decodes the config file (main.go, lines 91-105). -/
def grabConfig (w : World) (s : St) : Except Error Config × St :=
  let s1 : St := { s with log := s.log ++ [Event.Open configFile] }
  match osOpen s.fs s.access configFile with
  | none => (.error .openingConfig, s1)
  | some content =>
    match w.Decode content with
    | none => (.error .decodingConfig, s1)
    | some config => (.ok config, s1)

/-- The entry routine (main.go, lines 107-152): the state after the run. -/
def main (w : World) (s : St) : St :=
  match grabConfig w s with
  | (.error _, s1) => s1
  | (.ok config, s1) =>
    match getPublicIp w s1 with
    | (.error _, s2) => s2
    | (.ok ip, s2) =>
      match readIpFromFile s2 with
      | (.error _, s3) => s3
      | (.ok prevIp, s3) =>
        if prevIp = ip then s3
        else
          match updateDynDns w config ip s3 with
          | (.error _, s4) => s4
          | (.ok _, s4) =>
            match writeIpToFile w ip s4 with
            | (.error _, s5) => s5
            | (.ok _, s5) => s5

/-! ## The states at which `main` calls each step -/

/-- The state in which `main` calls `getPublicIp`. -/
def atGetPublicIp (w : World) (s : St) : St := (grabConfig w s).2

/-- The state in which `main` calls `readIpFromFile`. -/
def atReadIp (w : World) (s : St) : St := (getPublicIp w (atGetPublicIp w s)).2

/-- The state in which `main` compares the two IPs and calls `updateDynDns`. -/
def atUpdate (w : World) (s : St) : St := (readIpFromFile (atReadIp w s)).2

/-- The state in which `main` calls `writeIpToFile`. -/
def atWrite (w : World) (config : Config) (ip : String) (s : St) : St :=
  (updateDynDns w config ip (atUpdate w s)).2

/-- Whether a logged operation is a call of `http.Post`. -/
def Event.isPost : Event → Bool
  | .Post _ _ => true
  | _ => false

/-- Whether a logged operation is a call of `os.WriteFile`. -/
def Event.isWriteFile : Event → Bool
  | .WriteFile _ _ => true
  | _ => false

/-- The operations performed by the run of `main` from `s`, oldest first. -/
def runOps (w : World) (s : St) : List Event := (main w s).log.drop s.log.length

/-! ## Concrete worlds -/

/-- The content of the config file of the example scenarios. -/
def exampleConfigText : String :=
  "\x7b\"Username\":\"u\",\"Password\":\"p\",\"FQDN\":\"host.example.com\"\x7d"

/-- The configuration that `exampleConfigText` decodes to. -/
def exampleConfig : Config := ⟨"u", "p", "host.example.com"⟩

/-- Whether a URL is an update URL of the example configuration made of
letters, digits and the marks `-._~:/?&=@` only.  A request to such a URL can be
sent; `net/http` does not send a request whose URL holds a control character
(`url.Parse` refuses it). -/
def plainUrl (url : String) : Bool :=
  (updateUrl exampleConfig "").data.isPrefixOf url.data
    && url.data.all fun c => c.isAlphanum || "-._~:/?&=@".data.contains c

/-- A world whose IP-echo service answers `get`, whose provider answers `post` to
every update whose URL is plain (no request goes out to any other URL), whose
write meets `fault`, and whose umask is the usual 022. -/
def worldOf (get post : Option Response) (fault : WriteFault) : World where
  Get := fun url => if url = publicIpRequestUrl then get else none
  Post := fun url _ => if plainUrl url then post else none
  Decode := fun text => if text = exampleConfigText then some exampleConfig else none
  writeFault := fault
  umask := 0o022

/-- A file system with the example config file in place and `cache` at the path
of the IP cache. -/
def fsOf (cache : File) : FS :=
  fun p => if p = configFile then .data exampleConfigText
           else if p = ipFile then cache else .absent

/-- The IP-echo service answers 200 with the body "9.9.9.9". -/
def ipAnswer9 : Option Response := some ⟨200, some "9.9.9.9"⟩

/-- The provider answers 200 with a readable body. -/
def updateAnswer : Option Response := some ⟨200, some "good 9.9.9.9"⟩

/-- An initial state: the given file system, nothing logged, and every file
readable and writable by the process. -/
def initial (fs : FS) : St := ⟨fs, [], fun _ => ⟨true, true⟩⟩

/-- An initial state in which the cache file holds "8.8.8.8" with the permission
bits 0200: the process may write it and may not read it. -/
def writeOnlyCache : St :=
  ⟨fsOf (.data "8.8.8.8"), [], fun p => if p = ipFile then ⟨false, true⟩ else ⟨true, true⟩⟩

/-- A world under the umask 0444, which clears the read bits of every file the
process creates. -/
def readStrippingWorld : World := { worldOf none none .none with umask := 0o444 }

/-- The successful class of HTTP status codes, 2xx: the reading of "success
status" in the specification.  The program itself compares with
`http.StatusOK` (200) only. -/
def specSuccessStatus (code : Nat) : Bool := 200 ≤ code && code < 300

/-! ## Lemmas on the steps of a run -/

theorem grabConfig_snd (w : World) (s : St) :
    (grabConfig w s).2 = { s with log := s.log ++ [Event.Open configFile] } := by
  unfold grabConfig
  split
  · rfl
  · split <;> rfl

theorem getPublicIp_snd (w : World) (s : St) :
    (getPublicIp w s).2 = { s with log := s.log ++ [Event.Get publicIpRequestUrl] } := by
  unfold getPublicIp
  split
  · rfl
  · split
    · rfl
    · split <;> rfl

theorem readIpFromFile_snd (s : St) :
    (readIpFromFile s).2 = { s with log := s.log ++ [Event.ReadFile ipFile] } := by
  unfold readIpFromFile
  split
  split <;> rfl

theorem updateDynDns_snd (w : World) (config : Config) (ip : String) (s : St) :
    (updateDynDns w config ip s).2 =
      { s with log := s.log ++ [Event.Post (updateUrl config ip) ""] } := by
  unfold updateDynDns
  simp only []
  split
  · rfl
  · split <;> rfl

theorem writeIpToFile_snd (w : World) (ip : String) (s : St) :
    (writeIpToFile w ip s).2 =
      { fs := (osWriteFile s.fs s.access w.umask ipFile ip 0o666 w.writeFault).1,
        log := s.log ++ [Event.WriteFile ipFile ip],
        access := (osWriteFile s.fs s.access w.umask ipFile ip 0o666 w.writeFault).2.1 } := by
  unfold writeIpToFile
  split
  next fs1 access1 err h =>
    rw [h]
    split <;> rfl

theorem atGetPublicIp_eq (w : World) (s : St) :
    atGetPublicIp w s = { s with log := s.log ++ [Event.Open configFile] } :=
  grabConfig_snd w s

theorem atReadIp_eq (w : World) (s : St) :
    atReadIp w s =
      { s with log := s.log ++ [Event.Open configFile, Event.Get publicIpRequestUrl] } := by
  unfold atReadIp
  rw [getPublicIp_snd, atGetPublicIp_eq]
  simp

theorem atUpdate_eq (w : World) (s : St) :
    atUpdate w s =
      { s with log := s.log ++ [Event.Open configFile, Event.Get publicIpRequestUrl,
                                Event.ReadFile ipFile] } := by
  unfold atUpdate
  rw [readIpFromFile_snd, atReadIp_eq]
  simp

theorem atWrite_eq (w : World) (config : Config) (ip : String) (s : St) :
    atWrite w config ip s =
      { s with log := s.log ++ [Event.Open configFile, Event.Get publicIpRequestUrl,
                                Event.ReadFile ipFile, Event.Post (updateUrl config ip) ""] } := by
  unfold atWrite
  rw [updateDynDns_snd, atUpdate_eq]
  simp

/-- The run of `main`, step by step, on the results of the calls. -/
theorem main_steps (w : World) (s : St) :
    main w s =
      match (grabConfig w s).1 with
      | .error _ => atGetPublicIp w s
      | .ok config =>
        match (getPublicIp w (atGetPublicIp w s)).1 with
        | .error _ => atReadIp w s
        | .ok ip =>
          match (readIpFromFile (atReadIp w s)).1 with
          | .error _ => atUpdate w s
          | .ok prevIp =>
            if prevIp = ip then atUpdate w s
            else
              match (updateDynDns w config ip (atUpdate w s)).1 with
              | .error _ => atWrite w config ip s
              | .ok _ => (writeIpToFile w ip (atWrite w config ip s)).2 := by
  unfold main atWrite atUpdate atReadIp atGetPublicIp
  rcases grabConfig w s with ⟨_ | config, s1⟩
  · rfl
  · simp only []
    rcases getPublicIp w s1 with ⟨_ | ip, s2⟩
    · rfl
    · simp only []
      rcases readIpFromFile s2 with ⟨_ | prevIp, s3⟩
      · rfl
      · simp only []
        split
        · rfl
        · rcases updateDynDns w config ip s3 with ⟨_ | u, s4⟩
          · rfl
          · simp only []
            rcases writeIpToFile w ip s4 with ⟨_ | u, s5⟩ <;> rfl

theorem main_log (w : World) (s : St) : (main w s).log = s.log ++ runOps w s := by
  unfold runOps
  rw [main_steps]
  split
  · simp [atGetPublicIp_eq]
  · split
    · simp [atReadIp_eq]
    · split
      · simp [atUpdate_eq]
      · split
        · simp [atUpdate_eq]
        · split
          · simp [atWrite_eq]
          · simp [atWrite_eq, writeIpToFile_snd]

/-- The run of `main` when the two IPs differ and the update call returns no
error: `writeIpToFile` is the last step. -/
theorem main_of_update_ok (w : World) (s : St) (config : Config) (ip prevIp : String)
    (hconfig : (grabConfig w s).1 = .ok config)
    (hip : (getPublicIp w (atGetPublicIp w s)).1 = .ok ip)
    (hprev : (readIpFromFile (atReadIp w s)).1 = .ok prevIp)
    (hne : prevIp ≠ ip)
    (hupdate : (updateDynDns w config ip (atUpdate w s)).1 = .ok ()) :
    main w s = (writeIpToFile w ip (atWrite w config ip s)).2 := by
  rw [main_steps, hconfig]
  simp only []
  rw [hip]
  simp only []
  rw [hprev]
  simp only [hne, if_false]
  rw [hupdate]

/-- The run of `main` when the two IPs differ and the update call returns an
error: the run stops there. -/
theorem main_of_update_error (w : World) (s : St) (config : Config) (ip prevIp : String)
    (e : Error)
    (hconfig : (grabConfig w s).1 = .ok config)
    (hip : (getPublicIp w (atGetPublicIp w s)).1 = .ok ip)
    (hprev : (readIpFromFile (atReadIp w s)).1 = .ok prevIp)
    (hne : prevIp ≠ ip)
    (hupdate : (updateDynDns w config ip (atUpdate w s)).1 = .error e) :
    main w s = atWrite w config ip s := by
  rw [main_steps, hconfig]
  simp only []
  rw [hip]
  simp only []
  rw [hprev]
  simp only [hne, if_false]
  rw [hupdate]

/-- A write that returns no error leaves the cache path holding exactly the
data. -/
theorem writeIpToFile_ok_fs (w : World) (ip : String) (s : St)
    (hwrite : (writeIpToFile w ip s).1 = .ok ()) :
    (writeIpToFile w ip s).2.fs ipFile = .data ip := by
  rw [writeIpToFile_snd]
  unfold writeIpToFile at hwrite
  unfold osWriteFile at hwrite ⊢
  cases hf : s.fs ipFile <;> cases hw : w.writeFault <;>
    cases ha : (s.access ipFile).write <;>
    simp [hf, hw, ha, FS.set] at hwrite ⊢

/-- The update URL is the format string with the four values in place. -/
theorem updateUrl_eq (config : Config) (ip : String) :
    updateUrl config ip =
      "https://" ++ config.Username ++ ":" ++ config.Password ++ "@" ++ providerHost
        ++ "/nic/update?hostname=" ++ config.FQDN ++ "&myip=" ++ ip := by
  apply String.ext
  simp [updateUrl, Sprintf, dynDnsUrl, sprintfAux, providerHost, String.data_append]

/-- What a call of `writeIpToFile` leaves at the cache path: the data when it
returns no error; otherwise what was there or a leading part of the data. -/
theorem writeIpToFile_fs_cases (w : World) (ip : String) (s : St) :
    ((writeIpToFile w ip s).1 = .ok () ∧ (writeIpToFile w ip s).2.fs ipFile = .data ip)
    ∨ ((writeIpToFile w ip s).1 = .error .writingIpFile
        ∧ ((writeIpToFile w ip s).2.fs ipFile = s.fs ipFile
          ∨ ∃ n, (writeIpToFile w ip s).2.fs ipFile = .data ⟨ip.data.take n⟩)) := by
  unfold writeIpToFile osWriteFile
  cases hf : s.fs ipFile <;> cases hw : w.writeFault <;>
    cases ha : (s.access ipFile).write <;> simp [hf, hw, ha, FS.set]
  all_goals first
    | exact ⟨_, rfl⟩
    | exact Or.inr ⟨_, rfl⟩

/-! ## The claims -/

/-- Claim C1. In a run in which the config loads, the resolver succeeds and the
cache read succeeds with the very string the resolver returned, the run performs
exactly three operations (open the config, GET the public IP, read the cache):
no POST, hence no call of `updateDynDns`, and no `os.WriteFile`, hence no call of
`writeIpToFile`; the file system after the run is the one before it. -/
theorem main_identical_ip_is_noop (w : World) (s : St) (config : Config) (ip : String)
    (hconfig : (grabConfig w s).1 = .ok config)
    (hip : (getPublicIp w (atGetPublicIp w s)).1 = .ok ip)
    (hprev : (readIpFromFile (atReadIp w s)).1 = .ok ip) :
    runOps w s = [Event.Open configFile, Event.Get publicIpRequestUrl, Event.ReadFile ipFile]
      ∧ (runOps w s).filter Event.isPost = []
      ∧ (runOps w s).filter Event.isWriteFile = []
      ∧ (main w s).fs = s.fs := by
  have hmain : main w s = atUpdate w s := by
    rw [main_steps, hconfig]
    simp only []
    rw [hip]
    simp only []
    rw [hprev]
    simp
  have hops : runOps w s =
      [Event.Open configFile, Event.Get publicIpRequestUrl, Event.ReadFile ipFile] := by
    unfold runOps
    rw [hmain, atUpdate_eq]
    simp
  refine ⟨hops, ?_, ?_, ?_⟩
  · rw [hops]; rfl
  · rw [hops]; rfl
  · rw [hmain, atUpdate_eq]

/-- Witness of C1: the cache holds "9.9.9.9" and the resolver returns
"9.9.9.9". -/
theorem main_identical_ip_is_noop_witness :
    (readIpFromFile (atReadIp (worldOf ipAnswer9 none .none)
        (initial (fsOf (.data "9.9.9.9"))))).1 = .ok "9.9.9.9"
    ∧ (runOps (worldOf ipAnswer9 none .none)
        (initial (fsOf (.data "9.9.9.9")))).filter Event.isPost = []
    ∧ (main (worldOf ipAnswer9 none .none)
        (initial (fsOf (.data "9.9.9.9")))).fs = fsOf (.data "9.9.9.9") :=
  ⟨rfl,
   (main_identical_ip_is_noop (worldOf ipAnswer9 none .none)
      (initial (fsOf (.data "9.9.9.9"))) exampleConfig "9.9.9.9"
      rfl rfl rfl).2.1,
   (main_identical_ip_is_noop (worldOf ipAnswer9 none .none)
      (initial (fsOf (.data "9.9.9.9"))) exampleConfig "9.9.9.9"
      rfl rfl rfl).2.2.2⟩

/-- Claim C2, as amended. In a run in which the config loads, the resolver succeeds
and the cache read succeeds with a string other than the resolved IP, the run
performs exactly one POST, to the update URL of the resolved IP; and when that
call of `updateDynDns` returns no error and the call of `writeIpToFile` returns
no error either, the cache file holds exactly the resolved IP after the run. -/
theorem main_differing_ip_updates_once (w : World) (s : St) (config : Config)
    (ip prevIp : String)
    (hconfig : (grabConfig w s).1 = .ok config)
    (hip : (getPublicIp w (atGetPublicIp w s)).1 = .ok ip)
    (hprev : (readIpFromFile (atReadIp w s)).1 = .ok prevIp)
    (hne : prevIp ≠ ip) :
    (runOps w s).filter Event.isPost = [Event.Post (updateUrl config ip) ""]
      ∧ ((updateDynDns w config ip (atUpdate w s)).1 = .ok () →
          (runOps w s).filter Event.isWriteFile = [Event.WriteFile ipFile ip]
          ∧ ((writeIpToFile w ip (atWrite w config ip s)).1 = .ok () →
              (main w s).fs ipFile = .data ip)) := by
  constructor
  · rcases hu : (updateDynDns w config ip (atUpdate w s)).1 with e | u
    · unfold runOps
      rw [main_of_update_error w s config ip prevIp e hconfig hip hprev hne hu, atWrite_eq]
      simp [Event.isPost]
    · unfold runOps
      rw [main_of_update_ok w s config ip prevIp hconfig hip hprev hne hu,
        writeIpToFile_snd, atWrite_eq]
      simp [Event.isPost]
  · intro hu
    constructor
    · unfold runOps
      rw [main_of_update_ok w s config ip prevIp hconfig hip hprev hne hu,
        writeIpToFile_snd, atWrite_eq]
      simp [Event.isWriteFile]
    · intro hwrite
      rw [main_of_update_ok w s config ip prevIp hconfig hip hprev hne hu]
      exact writeIpToFile_ok_fs w ip _ hwrite

/-- Witness of C2 as amended (scenario A): config of user "u", resolver returns
"9.9.9.9", cache file absent, the provider answers 200, the write succeeds. -/
theorem main_differing_ip_updates_once_witness :
    (runOps (worldOf ipAnswer9 updateAnswer .none)
        (initial (fsOf .absent))).filter Event.isPost
      = [Event.Post
          "https://u:p@domains.google.com/nic/update?hostname=host.example.com&myip=9.9.9.9" ""]
    ∧ (main (worldOf ipAnswer9 updateAnswer .none)
        (initial (fsOf .absent))).fs ipFile = .data "9.9.9.9" :=
  ⟨(main_differing_ip_updates_once
      (worldOf ipAnswer9 updateAnswer .none)
      (initial (fsOf .absent)) exampleConfig "9.9.9.9" "" rfl rfl rfl (by decide)).1,
   ((main_differing_ip_updates_once
      (worldOf ipAnswer9 updateAnswer .none)
      (initial (fsOf .absent)) exampleConfig "9.9.9.9" "" rfl rfl rfl (by decide)).2 rfl).2 rfl⟩

/-- Counterexample to claim C2. Scenario A with a cache file that cannot be created:
the config loads, the resolver returns "9.9.9.9", the cache read succeeds with
the empty string, `updateDynDns` is called and returns no error (the provider
answers 200), and yet the cache file does not contain "9.9.9.9" after the run,
because `os.WriteFile` fails. -/
theorem main_differing_ip_write_may_fail :
    (grabConfig (worldOf ipAnswer9 updateAnswer
        .openFails) (initial (fsOf .absent))).1 = .ok exampleConfig
    ∧ (getPublicIp (worldOf ipAnswer9 updateAnswer
        .openFails) (atGetPublicIp (worldOf ipAnswer9
          updateAnswer .openFails) (initial (fsOf .absent)))).1
        = .ok "9.9.9.9"
    ∧ (readIpFromFile (atReadIp (worldOf ipAnswer9
          updateAnswer .openFails) (initial (fsOf .absent)))).1 = .ok ""
    ∧ (updateDynDns (worldOf ipAnswer9 updateAnswer
        .openFails) exampleConfig "9.9.9.9" (atUpdate (worldOf ipAnswer9
          updateAnswer .openFails) (initial (fsOf .absent)))).1 = .ok ()
    ∧ (main (worldOf ipAnswer9 updateAnswer
        .openFails) (initial (fsOf .absent))).fs ipFile = .absent
    ∧ (main (worldOf ipAnswer9 updateAnswer
        .openFails) (initial (fsOf .absent))).fs ipFile ≠ .data "9.9.9.9" :=
  ⟨rfl, rfl, rfl, rfl, rfl, by decide⟩

/-- Claim C3. A failing step ends the run.  If `grabConfig` fails, the only
operation of the run is the opening of the config file (no GET, no POST, no read
or write of the cache).  If `getPublicIp` fails, the run stops after the GET (no
POST, no write).  If `readIpFromFile` fails, the run stops after the read (no
POST, no write).  If `updateDynDns` fails, the run stops after the POST (no
write).  In all four cases the file system is left as it was. -/
theorem main_failure_aborts (w : World) (s : St) :
    (∀ e, (grabConfig w s).1 = .error e →
        runOps w s = [Event.Open configFile] ∧ (main w s).fs = s.fs)
    ∧ (∀ config e, (grabConfig w s).1 = .ok config →
        (getPublicIp w (atGetPublicIp w s)).1 = .error e →
        runOps w s = [Event.Open configFile, Event.Get publicIpRequestUrl]
          ∧ (main w s).fs = s.fs)
    ∧ (∀ config ip e, (grabConfig w s).1 = .ok config →
        (getPublicIp w (atGetPublicIp w s)).1 = .ok ip →
        (readIpFromFile (atReadIp w s)).1 = .error e →
        runOps w s = [Event.Open configFile, Event.Get publicIpRequestUrl,
                      Event.ReadFile ipFile]
          ∧ (main w s).fs = s.fs)
    ∧ (∀ config ip prevIp e, (grabConfig w s).1 = .ok config →
        (getPublicIp w (atGetPublicIp w s)).1 = .ok ip →
        (readIpFromFile (atReadIp w s)).1 = .ok prevIp →
        prevIp ≠ ip →
        (updateDynDns w config ip (atUpdate w s)).1 = .error e →
        runOps w s = [Event.Open configFile, Event.Get publicIpRequestUrl,
                      Event.ReadFile ipFile, Event.Post (updateUrl config ip) ""]
          ∧ (runOps w s).filter Event.isWriteFile = []
          ∧ (main w s).fs = s.fs) := by
  refine ⟨?_, ?_, ?_, ?_⟩
  · intro e hconfig
    have hmain : main w s = atGetPublicIp w s := by
      rw [main_steps, hconfig]
    unfold runOps
    rw [hmain, atGetPublicIp_eq]
    simp
  · intro config e hconfig hip
    have hmain : main w s = atReadIp w s := by
      rw [main_steps, hconfig]
      simp only []
      rw [hip]
    unfold runOps
    rw [hmain, atReadIp_eq]
    simp
  · intro config ip e hconfig hip hprev
    have hmain : main w s = atUpdate w s := by
      rw [main_steps, hconfig]
      simp only []
      rw [hip]
      simp only []
      rw [hprev]
    unfold runOps
    rw [hmain, atUpdate_eq]
    simp
  · intro config ip prevIp e hconfig hip hprev hne hupdate
    unfold runOps
    rw [main_of_update_error w s config ip prevIp e hconfig hip hprev hne hupdate, atWrite_eq]
    simp [Event.isWriteFile]

/-- Witness of C3, one failing run per step: the config file is missing; the
IP-echo endpoint answers HTTP 500; the cache file cannot be read; the update
request cannot be sent (the cache holds "1.1.1.1" and keeps it). -/
theorem main_failure_aborts_witness :
    (runOps (worldOf ipAnswer9 updateAnswer .none) (initial (fun _ => .absent))
        = [Event.Open configFile])
    ∧ (runOps (worldOf (some ⟨500, some "oops"⟩) updateAnswer .none) (initial (fsOf .absent))
        = [Event.Open configFile, Event.Get publicIpRequestUrl])
    ∧ (runOps (worldOf ipAnswer9 updateAnswer .none) (initial (fsOf .unreadable))
        = [Event.Open configFile, Event.Get publicIpRequestUrl, Event.ReadFile ipFile])
    ∧ ((main (worldOf ipAnswer9 none .none) (initial (fsOf (.data "1.1.1.1")))).fs
        = fsOf (.data "1.1.1.1")) :=
  ⟨((main_failure_aborts (worldOf ipAnswer9 updateAnswer .none)
      (initial (fun _ => .absent))).1 .openingConfig rfl).1,
   ((main_failure_aborts (worldOf (some ⟨500, some "oops"⟩) updateAnswer .none)
      (initial (fsOf .absent))).2.1 exampleConfig (.non200 500) rfl rfl).1,
   ((main_failure_aborts (worldOf ipAnswer9 updateAnswer .none)
      (initial (fsOf .unreadable))).2.2.1 exampleConfig "9.9.9.9" .readingIpFile
        rfl rfl rfl).1,
   ((main_failure_aborts (worldOf ipAnswer9 none .none)
      (initial (fsOf (.data "1.1.1.1")))).2.2.2 exampleConfig "9.9.9.9" "1.1.1.1"
        .updatingDynDns rfl rfl rfl (by decide) rfl).2.2⟩

/-- Counterexample to claim C5. The cache file holds "8.8.8.8" with the
permission bits 0200 (the process may write it, not read it): `writeIpToFile`
of "1.2.3.4" returns no error and the file holds "1.2.3.4", yet the
`readIpFromFile` that follows returns an error, not "1.2.3.4".  The same happens
with no cache file under the umask 0444: the file is created by the write with
the bits 0222 and cannot be read back. -/
theorem write_only_cache_breaks_roundtrip :
    (writeIpToFile (worldOf none none .none) "1.2.3.4" writeOnlyCache).1 = .ok ()
    ∧ (writeIpToFile (worldOf none none .none) "1.2.3.4" writeOnlyCache).2.fs ipFile
        = .data "1.2.3.4"
    ∧ (readIpFromFile (writeIpToFile (worldOf none none .none) "1.2.3.4" writeOnlyCache).2).1
        = .error .readingIpFile
    ∧ (readIpFromFile (writeIpToFile (worldOf none none .none) "1.2.3.4" writeOnlyCache).2).1
        ≠ .ok "1.2.3.4"
    ∧ (writeIpToFile readStrippingWorld "1.2.3.4" (initial (fsOf .absent))).1 = .ok ()
    ∧ (readIpFromFile (writeIpToFile readStrippingWorld "1.2.3.4"
        (initial (fsOf .absent))).2).1 = .error .readingIpFile :=
  ⟨rfl, rfl, rfl,
   (fun h => nomatch
     (h : (Except.error Error.readingIpFile : Except Error String) = Except.ok "1.2.3.4")),
   rfl, rfl⟩

/-- Claim C5, as amended. Round trip of the IP cache: whatever the cache path
held before, if `writeIpToFile ip` returns no error then the cache file holds
exactly `ip`, and the `readIpFromFile` that follows returns exactly `ip` and no
error when the permission bits of the file let the process read it. -/
theorem write_then_read_roundtrip (w : World) (s : St) (ip : String)
    (hwrite : (writeIpToFile w ip s).1 = .ok ()) :
    (writeIpToFile w ip s).2.fs ipFile = .data ip
    ∧ (((writeIpToFile w ip s).2.access ipFile).read = true →
        (readIpFromFile (writeIpToFile w ip s).2).1 = .ok ip) := by
  have hfs := writeIpToFile_ok_fs w ip s hwrite
  refine ⟨hfs, ?_⟩
  intro hread
  simp [readIpFromFile, osReadFile, hfs, hread]

/-- Witness of C5 as amended: "1.2.3.4" written over a readable cache that held
"8.8.8.8" is read back as "1.2.3.4". -/
theorem write_then_read_roundtrip_witness :
    (writeIpToFile (worldOf none none .none) "1.2.3.4" (initial (fsOf (.data "8.8.8.8")))).1
        = .ok ()
    ∧ (readIpFromFile (writeIpToFile (worldOf none none .none) "1.2.3.4"
        (initial (fsOf (.data "8.8.8.8")))).2).1 = .ok "1.2.3.4" :=
  ⟨rfl, (write_then_read_roundtrip (worldOf none none .none)
      (initial (fsOf (.data "8.8.8.8"))) "1.2.3.4" rfl).2 rfl⟩

/-- Counterexample to claim C6. The IP-echo service answers 200 with the body
"9.9.9.9\n" and the cache holds "9.9.9.9": `getPublicIp` returns the body with
its newline, not "9.9.9.9".  With that value `main` does not find the two IPs
identical: it goes on to `updateDynDns`, whose `http.Post` is refused because of
the control character in the URL, and the run ends there with the cache still
holding "9.9.9.9". -/
theorem getPublicIp_keeps_trailing_newline :
    (getPublicIp (worldOf (some ⟨200, some "9.9.9.9\n"⟩) updateAnswer .none)
        (initial (fsOf (.data "9.9.9.9")))).1 = .ok "9.9.9.9\n"
    ∧ (getPublicIp (worldOf (some ⟨200, some "9.9.9.9\n"⟩) updateAnswer .none)
        (initial (fsOf (.data "9.9.9.9")))).1 ≠ .ok "9.9.9.9"
    ∧ runOps (worldOf (some ⟨200, some "9.9.9.9\n"⟩) updateAnswer .none)
        (initial (fsOf (.data "9.9.9.9")))
        = [Event.Open configFile, Event.Get publicIpRequestUrl, Event.ReadFile ipFile,
           Event.Post (updateUrl exampleConfig "9.9.9.9\n") ""]
    ∧ (updateDynDns (worldOf (some ⟨200, some "9.9.9.9\n"⟩) updateAnswer .none)
        exampleConfig "9.9.9.9\n" (initial (fsOf (.data "9.9.9.9")))).1
        = .error .updatingDynDns
    ∧ (main (worldOf (some ⟨200, some "9.9.9.9\n"⟩) updateAnswer .none)
        (initial (fsOf (.data "9.9.9.9")))).fs ipFile = .data "9.9.9.9" :=
  ⟨rfl,
   fun h => absurd (Except.ok.inj (h : Except.ok "9.9.9.9\n" = Except.ok "9.9.9.9"))
     (by decide),
   rfl, rfl, rfl⟩

/-- Claim C6, as amended. When the IP-echo service answers 200 with a readable
body, `getPublicIp` returns that body verbatim; and that verbatim value is what
`main` compares with the cached IP (no POST when they are equal, one POST for the
body when they differ) and what it hands to `writeIpToFile`. -/
theorem getPublicIp_returns_body_verbatim (w : World) (s : St) (body : String)
    (hget : w.Get publicIpRequestUrl = some ⟨200, some body⟩) :
    (getPublicIp w s).1 = .ok body
    ∧ (∀ config prevIp, (grabConfig w s).1 = .ok config →
        (readIpFromFile (atReadIp w s)).1 = .ok prevIp →
        (prevIp = body → (runOps w s).filter Event.isPost = [])
        ∧ (prevIp ≠ body →
            (runOps w s).filter Event.isPost = [Event.Post (updateUrl config body) ""]
            ∧ ((updateDynDns w config body (atUpdate w s)).1 = .ok () →
                (runOps w s).filter Event.isWriteFile = [Event.WriteFile ipFile body]))) := by
  have hbody : ∀ t : St, (getPublicIp w t).1 = .ok body := by
    intro t
    simp [getPublicIp, hget]
  refine ⟨hbody s, ?_⟩
  intro config prevIp hconfig hprev
  have hip := hbody (atGetPublicIp w s)
  constructor
  · intro heq
    subst heq
    have hmain : main w s = atUpdate w s := by
      rw [main_steps, hconfig]
      simp only []
      rw [hip]
      simp only []
      rw [hprev]
      simp
    unfold runOps
    rw [hmain, atUpdate_eq]
    simp [Event.isPost]
  · intro hne
    constructor
    · rcases hu : (updateDynDns w config body (atUpdate w s)).1 with e | u
      · unfold runOps
        rw [main_of_update_error w s config body prevIp e hconfig hip hprev hne hu, atWrite_eq]
        simp [Event.isPost]
      · unfold runOps
        rw [main_of_update_ok w s config body prevIp hconfig hip hprev hne hu,
          writeIpToFile_snd, atWrite_eq]
        simp [Event.isPost]
    · intro hu
      unfold runOps
      rw [main_of_update_ok w s config body prevIp hconfig hip hprev hne hu,
        writeIpToFile_snd, atWrite_eq]
      simp [Event.isWriteFile]

/-- Witness of C6 as amended: the body "9.9.9.9\n" is returned as it is. -/
theorem getPublicIp_returns_body_verbatim_witness :
    (getPublicIp (worldOf (some ⟨200, some "9.9.9.9\n"⟩) updateAnswer .none)
        (initial (fsOf .absent))).1 = .ok "9.9.9.9\n" :=
  (getPublicIp_returns_body_verbatim (worldOf (some ⟨200, some "9.9.9.9\n"⟩) updateAnswer .none)
    (initial (fsOf .absent)) "9.9.9.9\n" rfl).1

/-- Counterexample to claim C7. The IP-echo service answers 203 (a status of the
successful class, sent by a transforming proxy) with the readable body
"9.9.9.9": `getPublicIp` returns an error. -/
theorem getPublicIp_rejects_203 :
    specSuccessStatus 203 = true
    ∧ (getPublicIp (worldOf (some ⟨203, some "9.9.9.9"⟩) updateAnswer .none)
        (initial (fsOf .absent))).1 = .error (.non200 203) :=
  ⟨rfl, rfl⟩

/-- Claim C7, as amended. `getPublicIp` returns an error if the GET request cannot
be sent, and returns an error if the status code of the response is not 200; for
every response with status code 200 and a readable body it returns the body and
no error. -/
theorem getPublicIp_error_unless_200 (w : World) (s : St) :
    (w.Get publicIpRequestUrl = none → (getPublicIp w s).1 = .error .gettingPublicIp)
    ∧ (∀ resp, w.Get publicIpRequestUrl = some resp → resp.StatusCode ≠ 200 →
        (getPublicIp w s).1 = .error (.non200 resp.StatusCode))
    ∧ (∀ body, w.Get publicIpRequestUrl = some ⟨200, some body⟩ →
        (getPublicIp w s).1 = .ok body) := by
  refine ⟨?_, ?_, ?_⟩
  · intro hget
    simp [getPublicIp, hget]
  · intro resp hget hstatus
    simp [getPublicIp, hget, hstatus]
  · intro body hget
    simp [getPublicIp, hget]

/-- Witness of C7 as amended: the request cannot be sent; the service answers
500; the service answers 200 with the body "9.9.9.9". -/
theorem getPublicIp_error_unless_200_witness :
    (getPublicIp (worldOf none none .none) (initial (fsOf .absent))).1
        = .error .gettingPublicIp
    ∧ (getPublicIp (worldOf (some ⟨500, some "oops"⟩) none .none) (initial (fsOf .absent))).1
        = .error (.non200 500)
    ∧ (getPublicIp (worldOf ipAnswer9 none .none) (initial (fsOf .absent))).1 = .ok "9.9.9.9" :=
  ⟨(getPublicIp_error_unless_200 (worldOf none none .none) (initial (fsOf .absent))).1 rfl,
   (getPublicIp_error_unless_200 (worldOf (some ⟨500, some "oops"⟩) none .none)
      (initial (fsOf .absent))).2.1 ⟨500, some "oops"⟩ rfl (by decide),
   (getPublicIp_error_unless_200 (worldOf ipAnswer9 none .none)
      (initial (fsOf .absent))).2.2 "9.9.9.9" rfl⟩

/-- Claim C8. The status code of the provider's response has no part in the result
of `updateDynDns`: whatever the code, if the body can be read the call returns no
error, and `main` goes on to call `writeIpToFile` with the new IP; the call
returns an error exactly when the request cannot be sent or the body of the
response cannot be read. -/
theorem updateDynDns_ignores_status (w : World) (s : St) (config : Config) (ip : String) :
    (∀ t status body, w.Post (updateUrl config ip) "" = some ⟨status, some body⟩ →
        (updateDynDns w config ip t).1 = .ok ())
    ∧ (∀ t, (∃ e, (updateDynDns w config ip t).1 = .error e) ↔
        (w.Post (updateUrl config ip) "" = none
          ∨ ∃ status, w.Post (updateUrl config ip) "" = some ⟨status, none⟩))
    ∧ (∀ prevIp status body, (grabConfig w s).1 = .ok config →
        (getPublicIp w (atGetPublicIp w s)).1 = .ok ip →
        (readIpFromFile (atReadIp w s)).1 = .ok prevIp →
        prevIp ≠ ip →
        w.Post (updateUrl config ip) "" = some ⟨status, some body⟩ →
        runOps w s = [Event.Open configFile, Event.Get publicIpRequestUrl,
                      Event.ReadFile ipFile, Event.Post (updateUrl config ip) "",
                      Event.WriteFile ipFile ip]
        ∧ ((writeIpToFile w ip (atWrite w config ip s)).1 = .ok () →
            (main w s).fs ipFile = .data ip)) := by
  have hok : ∀ t status body, w.Post (updateUrl config ip) "" = some ⟨status, some body⟩ →
      (updateDynDns w config ip t).1 = .ok () := by
    intro t status body hpost
    simp [updateDynDns, hpost]
  refine ⟨hok, ?_, ?_⟩
  · intro t
    unfold updateDynDns
    simp only []
    rcases hpost : w.Post (updateUrl config ip) "" with _ | ⟨status, _ | body⟩ <;> simp
  · intro prevIp status body hconfig hip hprev hne hpost
    have hu := hok (atUpdate w s) status body hpost
    have hmain := main_of_update_ok w s config ip prevIp hconfig hip hprev hne hu
    constructor
    · unfold runOps
      rw [hmain, writeIpToFile_snd, atWrite_eq]
      simp
    · intro hwrite
      rw [hmain]
      exact writeIpToFile_ok_fs w ip _ hwrite

/-- Witness of C8: the provider answers 401 to the update for "9.9.9.9"; the call
returns no error and the cache, which held "1.1.1.1", then holds "9.9.9.9". -/
theorem updateDynDns_ignores_status_witness :
    (updateDynDns (worldOf ipAnswer9 (some ⟨401, some "badauth"⟩) .none) exampleConfig
        "9.9.9.9" (initial (fsOf (.data "1.1.1.1")))).1 = .ok ()
    ∧ (main (worldOf ipAnswer9 (some ⟨401, some "badauth"⟩) .none)
        (initial (fsOf (.data "1.1.1.1")))).fs ipFile = .data "9.9.9.9" :=
  ⟨(updateDynDns_ignores_status (worldOf ipAnswer9 (some ⟨401, some "badauth"⟩) .none)
      (initial (fsOf (.data "1.1.1.1"))) exampleConfig "9.9.9.9").1
        (initial (fsOf (.data "1.1.1.1"))) 401 "badauth" rfl,
   ((updateDynDns_ignores_status (worldOf ipAnswer9 (some ⟨401, some "badauth"⟩) .none)
      (initial (fsOf (.data "1.1.1.1"))) exampleConfig "9.9.9.9").2.2
        "1.1.1.1" 401 "badauth" rfl rfl rfl (by decide) rfl).2 rfl⟩

/-- Counterexample to claim C9. For the configuration of user "u", password "p",
domain "host.example.com" and the IP "9.9.9.9", the URL of the POST has the path
"/nic/update": it is not the URL of the claim for the provider host, and no host
name (a string without a slash) put in the place of the provider host makes the
URL of the claim equal to it. -/
theorem updateUrl_path_is_nic_update :
    updateUrl exampleConfig "9.9.9.9"
        = "https://u:p@domains.google.com/nic/update?hostname=host.example.com&myip=9.9.9.9"
    ∧ updateUrl exampleConfig "9.9.9.9"
        ≠ "https://" ++ "u" ++ ":" ++ "p" ++ "@" ++ providerHost ++ "/update?hostname="
            ++ "host.example.com" ++ "&myip=" ++ "9.9.9.9"
    ∧ ¬ ∃ host : String, '/' ∉ host.data
        ∧ updateUrl exampleConfig "9.9.9.9"
            = "https://u:p@" ++ host ++ "/update?hostname=host.example.com&myip=9.9.9.9" := by
  refine ⟨by decide, by decide, ?_⟩
  rintro ⟨host, hslash, heq⟩
  have hurl : updateUrl exampleConfig "9.9.9.9"
      = "https://u:p@" ++ "domains.google.com/nic"
          ++ "/update?hostname=host.example.com&myip=9.9.9.9" := by decide
  rw [hurl] at heq
  have hdata := congrArg String.data heq
  simp only [String.data_append, List.append_assoc] at hdata
  have hhost : "domains.google.com/nic".data = host.data :=
    (List.append_left_inj _).1 ((List.append_right_inj _).1 hdata)
  apply hslash
  rw [← hhost]
  decide

/-- Claim C9, as amended. For every configuration and IP string, `updateDynDns`
sends its POST (empty content type, no body) to exactly
"https://" ++ u ++ ":" ++ p ++ "@" ++ providerHost ++ "/nic/update?hostname=" ++ f
++ "&myip=" ++ ip, where `providerHost` is "domains.google.com": the four values
are inserted verbatim, in that order. -/
theorem updateDynDns_posts_to_nic_update (w : World) (s : St) (config : Config)
    (ip : String) :
    (updateDynDns w config ip s).2.log
      = s.log ++ [Event.Post ("https://" ++ config.Username ++ ":" ++ config.Password ++ "@"
          ++ providerHost ++ "/nic/update?hostname=" ++ config.FQDN ++ "&myip=" ++ ip) ""]
    ∧ providerHost = "domains.google.com" := by
  rw [updateDynDns_snd, updateUrl_eq]
  exact ⟨rfl, rfl⟩

/-- Counterexample to claim C10. The cache holds "1.1.1.1", the resolver returns
"9.9.9.9", the update call returns no error, and `os.WriteFile` fails after it
has truncated the file: after the run the cache holds the empty string, which is
neither its content before the run nor the resolved IP. -/
theorem main_failed_write_truncates_cache :
    (getPublicIp (worldOf ipAnswer9 updateAnswer (.writeFails 0))
        (atGetPublicIp (worldOf ipAnswer9 updateAnswer (.writeFails 0))
          (initial (fsOf (.data "1.1.1.1"))))).1 = .ok "9.9.9.9"
    ∧ (initial (fsOf (.data "1.1.1.1"))).fs ipFile = .data "1.1.1.1"
    ∧ (main (worldOf ipAnswer9 updateAnswer (.writeFails 0))
        (initial (fsOf (.data "1.1.1.1")))).fs ipFile = .data ""
    ∧ (main (worldOf ipAnswer9 updateAnswer (.writeFails 0))
        (initial (fsOf (.data "1.1.1.1")))).fs ipFile
        ≠ (initial (fsOf (.data "1.1.1.1"))).fs ipFile
    ∧ (main (worldOf ipAnswer9 updateAnswer (.writeFails 0))
        (initial (fsOf (.data "1.1.1.1")))).fs ipFile ≠ .data "9.9.9.9" :=
  ⟨rfl, rfl, rfl, by decide, by decide⟩

/-- Claim C10, as amended. Over a whole run of `main`, for every initial state and
every outcome of the external calls: `os.WriteFile` is called at most once, and
the content of the cache path after
the run is either what it was before the run, or the result of a call of
`writeIpToFile` with the IP resolved in this run, made after `updateDynDns` was
called with that IP and returned no error: the resolved IP itself when the write
returns no error, and, when the write returns an error, what was there before or
a leading part of the resolved IP. -/
theorem main_cache_invariant (w : World) (s : St) :
    ((runOps w s).filter Event.isWriteFile).length ≤ 1
    ∧ ((main w s).fs ipFile = s.fs ipFile
      ∨ ∃ config ip, (grabConfig w s).1 = .ok config
          ∧ (getPublicIp w (atGetPublicIp w s)).1 = .ok ip
          ∧ Event.Post (updateUrl config ip) "" ∈ runOps w s
          ∧ (updateDynDns w config ip (atUpdate w s)).1 = .ok ()
          ∧ Event.WriteFile ipFile ip ∈ runOps w s
          ∧ (((writeIpToFile w ip (atWrite w config ip s)).1 = .ok ()
              ∧ (main w s).fs ipFile = .data ip)
            ∨ ((writeIpToFile w ip (atWrite w config ip s)).1 = .error .writingIpFile
              ∧ ∃ n, (main w s).fs ipFile = .data ⟨ip.data.take n⟩))) := by
  rcases hconfig : (grabConfig w s).1 with e | config
  · have hmain : main w s = atGetPublicIp w s := by rw [main_steps, hconfig]
    unfold runOps
    rw [hmain, atGetPublicIp_eq]
    simp [Event.isWriteFile]
  rcases hip : (getPublicIp w (atGetPublicIp w s)).1 with e | ip
  · have hmain : main w s = atReadIp w s := by
      rw [main_steps, hconfig]
      simp only []
      rw [hip]
    unfold runOps
    rw [hmain, atReadIp_eq]
    simp [Event.isWriteFile]
  rcases hprev : (readIpFromFile (atReadIp w s)).1 with e | prevIp
  · have hmain : main w s = atUpdate w s := by
      rw [main_steps, hconfig]
      simp only []
      rw [hip]
      simp only []
      rw [hprev]
    unfold runOps
    rw [hmain, atUpdate_eq]
    simp [Event.isWriteFile]
  by_cases heq : prevIp = ip
  · have hmain : main w s = atUpdate w s := by
      rw [main_steps, hconfig]
      simp only []
      rw [hip]
      simp only []
      rw [hprev]
      simp [heq]
    unfold runOps
    rw [hmain, atUpdate_eq]
    simp [Event.isWriteFile]
  rcases hu : (updateDynDns w config ip (atUpdate w s)).1 with e | u
  · unfold runOps
    rw [main_of_update_error w s config ip prevIp e hconfig hip hprev heq hu, atWrite_eq]
    simp [Event.isWriteFile]
  have hmain := main_of_update_ok w s config ip prevIp hconfig hip hprev heq hu
  have hops : runOps w s = [Event.Open configFile, Event.Get publicIpRequestUrl,
      Event.ReadFile ipFile, Event.Post (updateUrl config ip) "",
      Event.WriteFile ipFile ip] := by
    unfold runOps
    rw [hmain, writeIpToFile_snd, atWrite_eq]
    simp
  refine ⟨?_, ?_⟩
  · rw [hops]
    simp [Event.isWriteFile]
  · have hfs : (atWrite w config ip s).fs = s.fs := by rw [atWrite_eq]
    rcases writeIpToFile_fs_cases w ip (atWrite w config ip s) with ⟨hw, hdata⟩ | ⟨hw, hold | hpart⟩
    · right
      refine ⟨config, ip, rfl, rfl, ?_, hu, ?_, Or.inl ⟨hw, ?_⟩⟩
      · rw [hops]; simp
      · rw [hops]; simp
      · rw [hmain]; exact hdata
    · left
      rw [hmain, hold, hfs]
    · right
      refine ⟨config, ip, rfl, rfl, ?_, hu, ?_, Or.inr ⟨hw, ?_⟩⟩
      · rw [hops]; simp
      · rw [hops]; simp
      · rw [hmain]; exact hpart

end DynDns
